import Mathlib

/-!
Verification of the phim simulation platform core against its specification.
The definitions below are shallow embeddings of the Python source under
src/backend/src (models/database.py, models/epidemiological.py,
models/ml_forecasting.py) plus, where noted, models of lifecycle code that
only the repository tests reference.
-/

namespace Phim

/-! ## Simulation lifecycle (optimistic-CAS state machine)

The Simulation model in src/backend/src/models/database.py (lines 514-713)
carries status, task_id, worker_node, started_at, completed_at,
execution_time_seconds, results, metrics, is_validated and quality_score
columns, but the shipped file has no version column and no
start_simulation / complete_simulation / fail_simulation / cancel_simulation
methods: those are only referenced by test_race_conditions.py and
example_race_condition_fix.py. The operations are therefore modelled from
the spec (sections 4.1 and 8) and those tests; calculate_quality_score is
embedded from the source, which does exist in database.py. -/

inductive SimStatus where
  | pending | queued | running | completed | failed | cancelled
deriving DecidableEq, Repr

/-- Opaque JSON-dict blobs (results, metrics) modelled as association lists. -/
abbrev Blob := List (String × String)

/-- The Simulation record fields the lifecycle reads and writes.
Timestamps are modelled as natural numbers supplied by the caller. -/
structure SimRecord where
  status : SimStatus
  version : Nat
  task_id : Option String
  worker_node : Option String
  started_at : Option Nat
  completed_at : Option Nat
  execution_time : Option Nat
  results : Option Blob
  metrics : Option Blob
  is_validated : Bool
  quality_score : Option ℚ
deriving DecidableEq, Repr

/-- Modelled from the spec: a Simulation is created pending by the caller
with version 1 (spec section 3 and test_race_conditions.py,
test_version_increment). -/
def mkSimulation : SimRecord :=
  { status := .pending
    version := 1
    task_id := none
    worker_node := none
    started_at := none
    completed_at := none
    execution_time := none
    results := none
    metrics := none
    is_validated := false
    quality_score := none }

/-- Embedded from Simulation.calculate_quality_score in
src/backend/src/models/database.py: score 0 for failed, 0.1 for any other
non-completed status; for completed, 1.0 minus 0.5 if results are empty
(else 0.3 if they contain an error key), minus 0.1 if execution time
exceeds one hour, minus 0.2 if not validated, clamped to the range 0..1. -/
def calculate_quality_score (r : SimRecord) : ℚ :=
  if r.status = .failed then 0
  else if r.status ≠ .completed then 1/10
  else
    let s1 : ℚ :=
      match r.results with
      | none => 1 - 1/2
      | some res =>
          if res = [] then 1 - 1/2
          else if res.any (fun p => p.1 = "error") then 1 - 3/10
          else 1
    let s2 : ℚ :=
      match r.execution_time with
      | some t => if 3600 < t then s1 - 1/10 else s1
      | none => s1
    let s3 : ℚ := if r.is_validated then s2 else s2 - 1/5
    max 0 (min 1 s3)

/-- Errors raised by the modelled lifecycle operations. -/
inductive LifecycleError where
  | illegalTransition (op : String) (src : SimStatus)
  | concurrencyConflict
deriving DecidableEq, Repr

/-- Modelled from the spec: start_simulation is missing from src (only
test_race_conditions.py calls it). Per spec section 4.1 it attempts the CAS
pending to running as one atomic conditional update keyed on (id, version);
a non-matching row yields the boolean false with no exception and no write,
a matching one sets task bookkeeping, started_at, and bumps version.
The read of version and the conditional write form one atomic step here, so
the CAS condition reduces to the status test. -/
def start_simulation (tid wn : String) (now : Nat) (r : SimRecord) :
    SimRecord × Bool :=
  if r.status = .pending then
    ({ r with
        status := .running
        version := r.version + 1
        task_id := some tid
        worker_node := some wn
        started_at := some now }, true)
  else (r, false)

/-- Modelled from the spec: complete_simulation is missing from src (only
test_race_conditions.py calls it). Per spec section 4.1 it is legal only
from running, else it raises an illegal-transition error and writes
nothing; on success it stores results and metrics, sets completed_at,
computes execution_time and quality_score, and bumps version. -/
def complete_simulation (res met : Blob) (now : Nat) (r : SimRecord) :
    SimRecord × Option LifecycleError :=
  if r.status ≠ .running then (r, some (.illegalTransition "complete" r.status))
  else
    let r1 :=
      { r with
          status := .completed
          completed_at := some now
          results := some res
          metrics := some met
          execution_time := r.started_at.map (fun s => now - s)
          version := r.version + 1 }
    ({ r1 with quality_score := some (calculate_quality_score r1) }, none)

/-- Modelled from the spec: fail_simulation is missing from src (only
test_race_conditions.py calls it). Legal from running or pending; stores a
results blob with an error key ahead of the details, sets quality_score to
zero and bumps version; otherwise raises an illegal-transition error and
writes nothing. -/
def fail_simulation (msg : String) (details : Blob) (now : Nat)
    (r : SimRecord) : SimRecord × Option LifecycleError :=
  if r.status = .running ∨ r.status = .pending then
    ({ r with
        status := .failed
        completed_at := some now
        results := some (("error", msg) :: details)
        quality_score := some 0
        version := r.version + 1 }, none)
  else (r, some (.illegalTransition "fail" r.status))

/-- Modelled from the spec: cancel_simulation is missing from src (only
test_race_conditions.py calls it). Legal from pending or running; stores a
cancelled_reason blob and bumps version; otherwise raises an
illegal-transition error and writes nothing. -/
def cancel_simulation (reason : String) (now : Nat) (r : SimRecord) :
    SimRecord × Option LifecycleError :=
  if r.status = .pending ∨ r.status = .running then
    ({ r with
        status := .cancelled
        completed_at := some now
        results := some [("cancelled_reason", reason)]
        version := r.version + 1 }, none)
  else (r, some (.illegalTransition "cancel" r.status))

/-- One of the four mutating lifecycle calls. -/
inductive LifeOp where
  | startOp (tid wn : String)
  | completeOp (res met : Blob)
  | failOp (msg : String) (details : Blob)
  | cancelOp (reason : String)

/-- Dispatch a lifecycle call; the boolean reports whether the call
mutated the record (true on the successful CAS, false on the rejected or
no-op outcomes, which for complete, fail and cancel surface as errors). -/
def applyOp (op : LifeOp) (now : Nat) (r : SimRecord) : SimRecord × Bool :=
  match op with
  | .startOp t w => start_simulation t w now r
  | .completeOp res met =>
      let p := complete_simulation res met now r
      (p.1, p.2.isNone)
  | .failOp m d =>
      let p := fail_simulation m d now r
      (p.1, p.2.isNone)
  | .cancelOp rs =>
      let p := cancel_simulation rs now r
      (p.1, p.2.isNone)

/-- Sequentially run a list of start attempts against one shared record:
each start is a single atomic CAS, so any concurrent execution of the
workers is equivalent to some such sequence. -/
def runStarts (ws : List (String × String)) (now : Nat) (r : SimRecord) :
    SimRecord × List Bool :=
  match ws with
  | [] => (r, [])
  | (t, w) :: rest =>
      let p := start_simulation t w now r
      let q := runStarts rest now p.1
      (q.1, p.2 :: q.2)

/-! ## ML forecasting: feature engineering and data preparation

Embedded from TimeSeriesForecaster.create_features and
TimeSeriesForecaster.prepare_data in src/backend/src/models/ml_forecasting.py.
A frame is modelled as the ordered list of target-column values (rationals;
the embedded frame has no date column, so the seasonal date features of the
source do not arise, and pandas NaN values never occur in the raw data).
The target column name, a string parameter of the source, is fixed to the
label y, which only prefixes the engineered column labels. Note that the
up_to_index argument of create_features is dead in the source: the sliced
feature_data frame it builds is never used, so all features are computed
over the full frame exactly as embedded here. -/

/-- A pandas cell of an engineered feature column: NaN, an exact rational,
or the square root of a rational (pandas Series.std is the square root of
the ddof-1 sample variance; storing the radicand keeps the embedding
executable, and equality of these symbolic values implies equality of the
real values the source computes). -/
inductive FVal where
  | nan : FVal
  | num (x : ℚ) : FVal
  | root (x : ℚ) : FVal
deriving DecidableEq, Repr

/-- Mean of a window, as in pandas Series.mean. -/
def listMean (l : List ℚ) : ℚ := l.sum / l.length

/-- Sample variance with ddof 1; pandas Series.std is its square root
(windows in the source always have at least 3 elements, so the
denominator never vanishes there). -/
def sampleVar (l : List ℚ) : ℚ :=
  ((l.map (fun x => (x - listMean l) ^ 2)).sum) / ((l.length : ℚ) - 1)

/-- Minimum of a window, as in pandas Series.min (NaN on empty). -/
def listMin : List ℚ → FVal
  | [] => .nan
  | x :: xs => .num (xs.foldl min x)

/-- Maximum of a window, as in pandas Series.max (NaN on empty). -/
def listMax : List ℚ → FVal
  | [] => .nan
  | x :: xs => .num (xs.foldl max x)

/-- Sequential exponential moving average over rows 0..i exactly as the
forward pass in create_features: initialised with the first value, then
combined with smoothing factor alpha. -/
def emaList (alpha : ℚ) : List ℚ → FVal
  | [] => .nan
  | x :: xs => .num (xs.foldl (fun e v => alpha * v + (1 - alpha) * e) x)

/-- Value of the shift-k lag column at row i, reading row i-k of the
prefix of rows 0..i. -/
def lagVal (pre : List ℚ) (i k : Nat) : FVal :=
  if k ≤ i then
    match pre.get? (i - k) with
    | some v => .num v
    | none => .nan
  else .nan

/-- The rolling window of rows i-w+1..i inside the prefix of rows 0..i. -/
def rollingSlice (pre : List ℚ) (i w : Nat) : List ℚ := pre.drop (i + 1 - w)

/-- The four rolling-statistic cells of window w at row i. create_features
adds these columns only when the whole frame has at least w rows (the
length gate), and writes NaN at rows with fewer than w-1 predecessors. -/
def rollingBlock (pre : List ℚ) (n i w : Nat) : List (String × FVal) :=
  if w ≤ n then
    if w ≤ i + 1 then
      let s := rollingSlice pre i w
      [("y_rolling_mean_" ++ toString w, .num (listMean s)),
       ("y_rolling_std_" ++ toString w, .root (sampleVar s)),
       ("y_rolling_min_" ++ toString w, listMin s),
       ("y_rolling_max_" ++ toString w, listMax s)]
    else
      [("y_rolling_mean_" ++ toString w, .nan),
       ("y_rolling_std_" ++ toString w, .nan),
       ("y_rolling_min_" ++ toString w, .nan),
       ("y_rolling_max_" ++ toString w, .nan)]
  else []

/-- Value of the d-step difference column at row i. -/
def diffVal (pre : List ℚ) (i d : Nat) : FVal :=
  if d ≤ i then
    match pre.get? i, pre.get? (i - d) with
    | some a, some b => .num (a - b)
    | _, _ => .nan
  else .nan

/-- Row i of the frame returned by create_features, as labelled cells in
the column order of the source: the target column, lag 1..7, rolling
mean/std/min/max for windows 3, 7 and 14 (each gated on the frame length
n), trend and its square, the first difference, the seventh difference
(gated on n at least 7), and the three exponential moving averages. Every
cell is a function of the prefix pre of rows 0..i apart from the
length gates. -/
def featuresRow (pre : List ℚ) (n i : Nat) : List (String × FVal) :=
  [("y", match pre.get? i with | some v => FVal.num v | none => FVal.nan)]
  ++ (List.range 7).map
      (fun j => ("y_lag_" ++ toString (j + 1), lagVal pre i (j + 1)))
  ++ rollingBlock pre n i 3 ++ rollingBlock pre n i 7
  ++ rollingBlock pre n i 14
  ++ [("trend", FVal.num i), ("trend_squared", FVal.num ((i : ℚ) ^ 2))]
  ++ [("y_diff_1", diffVal pre i 1)]
  ++ (if 7 ≤ n then [("y_diff_7", diffVal pre i 7)] else [])
  ++ [("y_ema_0.1", emaList (1/10) pre),
      ("y_ema_0.3", emaList (3/10) pre),
      ("y_ema_0.5", emaList (1/2) pre)]

/-- Row i of create_features applied to a whole frame. -/
def create_features_row (data : List ℚ) (i : Nat) : List (String × FVal) :=
  featuresRow (data.take (i + 1)) data.length i

/-- Effective test size of prepare_data: the requested size clamped into
max(min_test_size, min(test_size, n div 3)) with min_test_size 10. -/
def effectiveTestSize (n k : Nat) : Nat := max 10 (min k (n / 3))

/-- A frame row is dropped by dropna when any cell is NaN. -/
def rowHasNan (row : List (String × FVal)) : Bool :=
  row.any (fun p => p.2 = FVal.nan)

/-- Training rows of prepare_data: features are built over the first s
rows only, then rows containing NaN are dropped. -/
def train_clean_rows (data : List ℚ) (s : Nat) :
    List (List (String × FVal)) :=
  ((List.range s).map (fun j => create_features_row (data.take s) j)).filter
    (fun r => !rowHasNan r)

/-- Raw per-point test rows of prepare_data: for test point i the features
are rebuilt over the training rows plus the test rows up to i, and the
last row of that extended frame is taken. -/
def test_raw_rows (data : List ℚ) (s t : Nat) :
    List (List (String × FVal)) :=
  (List.range t).map
    (fun i => create_features_row (data.take (s + i + 1)) (s + i))

/-- Column union in order of first appearance, as pd.concat aligns the
per-point test feature frames. -/
def colUnion (rows : List (List (String × FVal))) : List String :=
  rows.foldl
    (fun acc r => acc ++ (r.map Prod.fst).filter (fun c => !acc.contains c))
    []

/-- One test row aligned to the concatenated column set; columns the row
lacks are filled with NaN, as pd.concat does. -/
def alignedRow (cols : List String) (r : List (String × FVal)) :
    List FVal :=
  cols.map (fun c => match r.lookup c with | some v => v | none => FVal.nan)

/-- Cleaned test rows of prepare_data: the per-point rows are aligned on
the union of their columns and rows containing NaN are dropped. -/
def test_clean_rows (data : List ℚ) (s t : Nat) : List (List FVal) :=
  let rows := test_raw_rows data s t
  let cols := colUnion rows
  (rows.map (alignedRow cols)).filter (fun r => !r.contains FVal.nan)

/-- TimeSeriesForecaster.prepare_data: clamp the requested test size,
split chronologically at s = n - t, build leak-proof features for both
slices, drop NaN rows, and fail on insufficient or empty data. The
returned pair carries the cleaned training rows and cleaned test rows,
from which the source extracts the X and y arrays column-wise. -/
def prepare_data (data : List ℚ) (test_size : Nat) :
    Except String (List (List (String × FVal)) × List (List FVal)) :=
  let n := data.length
  let t := effectiveTestSize n test_size
  let s := n - t
  if s < 10 then
    .error "Insufficient training data (minimum 10 samples required)"
  else
    let trainClean := train_clean_rows data s
    let testClean := test_clean_rows data s t
    if trainClean = [] then
      .error "No valid training data remaining after removing NaN values"
    else if testClean = [] then
      .error "No valid test data remaining after removing NaN values"
    else .ok (trainClean, testClean)

/-- Number of rows of the test split prepare_data returns, when it
succeeds. -/
def prepareDataTestLen (data : List ℚ) (test_size : Nat) : Option Nat :=
  (prepare_data data test_size).toOption.map (fun p => p.2.length)

/-! ## EnsembleForecaster.fit_ensemble weight calculation

Embedded from the weight-calculation block at the end of
EnsembleForecaster.fit_ensemble in src/backend/src/models/ml_forecasting.py.
The validation error of a model is some e when validation succeeded with
mean squared error e, and none when it was recorded as float inf. The
Python dict comprehension that builds the weights reads the free variable
error, which at that point holds the value left by the last assignment
error = mean_squared_error(...) inside the per-model loop, that is, the
validation error of the last model (in iteration order) whose validation
succeeded; each usable model therefore receives (1/error)/total_inv_error
with that one shared error value, not its own. -/

/-- The value the leaked loop variable error holds after the per-model
loop: the last finite validation error in iteration order. -/
def lastAssignedError (errors : List (String × Option ℚ)) : Option ℚ :=
  (errors.filterMap Prod.snd).getLast?

/-- Weight assignment of fit_ensemble given the recorded per-model
validation errors (in model iteration order). -/
def fit_ensemble_weights (models : List String)
    (errors : List (String × Option ℚ)) : List (String × ℚ) :=
  let validKeys := (errors.filter (fun p => p.2.isSome)).map Prod.fst
  match lastAssignedError errors with
  | some elast =>
      let totalInv : ℚ := ((errors.filterMap Prod.snd).map (fun e => 1 / e)).sum
      models.map
        (fun m => (m, if validKeys.contains m then (1 / elast) / totalInv else 0))
  | none => models.map (fun m => (m, 1 / (models.length : ℚ)))

/-- Concrete frames and inputs used by counterexamples below. -/
def cexBase : List ℚ := [0, 1, 2, 3, 4]

/-- Fifty extra future rows appended behind row 4 of cexBase. -/
def cexExt : List ℚ := List.replicate 50 5

/-- A 24-row frame of zeros for the prepare_data counterexample. -/
def frame24 : List ℚ := List.replicate 24 0

/-- Recorded validation errors triggering the fit_ensemble weight bug:
random_forest validated with squared error 1, gradient_boosting with 4,
linear failed (error inf). -/
def bugErrors : List (String × Option ℚ) :=
  [("random_forest", some 1), ("gradient_boosting", some 4), ("linear", none)]

/-- The full engineered column set of create_features, produced whenever
the frame has at least 14 rows (all length gates open). -/
def fullCols : List String :=
  ["y", "y_lag_1", "y_lag_2", "y_lag_3", "y_lag_4", "y_lag_5", "y_lag_6",
   "y_lag_7",
   "y_rolling_mean_3", "y_rolling_std_3", "y_rolling_min_3",
   "y_rolling_max_3",
   "y_rolling_mean_7", "y_rolling_std_7", "y_rolling_min_7",
   "y_rolling_max_7",
   "y_rolling_mean_14", "y_rolling_std_14", "y_rolling_min_14",
   "y_rolling_max_14",
   "trend", "trend_squared", "y_diff_1", "y_diff_7",
   "y_ema_0.1", "y_ema_0.3", "y_ema_0.5"]

/-! ## SEIR compartmental model

Embedded from SEIRModel in src/backend/src/models/epidemiological.py.
The derivative function seir_equations is a direct translation of
SEIRModel._seir_equations including its max(0, x) clamps; simulate
integrates it with scipy.integrate.odeint (adaptive LSODA, rtol 1e-8,
atol 1e-10) and clamps the returned trajectory at 0, so a run of simulate
is modelled as an exact solution of the ODE on the simulated horizon
(IsSEIRSolution) sampled and clamped on the requested time grid
(infectiousSeries). The int population of the source is carried as a real
number; validate_parameters requires it positive. -/

structure SEIRParameters where
  beta : ℝ
  sigma : ℝ
  gamma : ℝ
  mu : ℝ
  population : ℝ

/-- SEIRModel.validate_parameters: beta nonnegative, sigma and gamma
positive, mu nonnegative, population positive (else it raises). -/
def validParams (p : SEIRParameters) : Prop :=
  0 ≤ p.beta ∧ 0 < p.sigma ∧ 0 < p.gamma ∧ 0 ≤ p.mu ∧ 0 < p.population

/-- One point of the SEIR state (also used for the derivative vector). -/
structure SEIRState where
  S : ℝ
  E : ℝ
  I : ℝ
  R : ℝ

/-- SEIRModel._seir_equations: clamp the incoming state at 0, then return
the four derivatives. -/
noncomputable def seir_equations (p : SEIRParameters) (y : SEIRState) :
    SEIRState :=
  let S := max 0 y.S
  let E := max 0 y.E
  let I := max 0 y.I
  let R := max 0 y.R
  let N := p.population
  { S := p.mu * N - p.beta * S * I / N - p.mu * S
    E := p.beta * S * I / N - p.sigma * E - p.mu * E
    I := p.sigma * E - p.gamma * I - p.mu * I
    R := p.gamma * I - p.mu * R }

/-- A trajectory that satisfies the SEIR ODE of seir_equations at every
nonnegative time: the idealisation of what odeint returns in
SEIRModel.simulate. -/
structure IsSEIRSolution (p : SEIRParameters) (f : ℝ → SEIRState) : Prop where
  hS : ∀ t, 0 ≤ t → HasDerivAt (fun u => (f u).S) (seir_equations p (f t)).S t
  hE : ∀ t, 0 ≤ t → HasDerivAt (fun u => (f u).E) (seir_equations p (f t)).E t
  hI : ∀ t, 0 ≤ t → HasDerivAt (fun u => (f u).I) (seir_equations p (f t)).I t
  hR : ∀ t, 0 ≤ t → HasDerivAt (fun u => (f u).R) (seir_equations p (f t)).R t

/-- The infectious column of the frame simulate returns on a time grid,
after the post-solve clamp np.maximum(solution, 0). -/
noncomputable def infectiousSeries (f : ℝ → SEIRState) (grid : List ℝ) :
    List ℝ :=
  grid.map (fun t => max 0 ((f t).I))

/-- SEIRModel.calculate_r0: beta / (gamma + mu). -/
noncomputable def calculate_r0 (p : SEIRParameters) : ℝ :=
  p.beta / (p.gamma + p.mu)

/-- Parameters of the beta = 0 counterexample run: sigma = gamma = 1,
mu = 0, population 1000. -/
noncomputable def cexParams : SEIRParameters :=
  { beta := 0, sigma := 1, gamma := 1, mu := 0, population := 1000 }

/-- Exact SEIR trajectory for cexParams with admissible initial state
(997, 2, 0, 0): the exposed pool converts into infections, so the
infectious compartment 2 t exp(-t) rises from 0. -/
noncomputable def cexSol : ℝ → SEIRState := fun t =>
  { S := 997
    E := 2 * Real.exp (-t)
    I := 2 * t * Real.exp (-t)
    R := 2 - 2 * ((1 + t) * Real.exp (-t)) }

/-- Parameters of the beta = 0 witness run with no initial exposed. -/
noncomputable def witParams : SEIRParameters :=
  { beta := 0, sigma := 1, gamma := 1, mu := 0, population := 1000 }

/-- Exact SEIR trajectory for witParams started at (999, 0, 1, 0): with
no exposed pool the infectious compartment exp(-t) only decays. -/
noncomputable def witSol : ℝ → SEIRState := fun t =>
  { S := 999
    E := 0
    I := Real.exp (-t)
    R := 1 - Real.exp (-t) }

/-- Concrete valid parameters for evaluating calculate_r0. -/
noncomputable def r0Params : SEIRParameters :=
  { beta := 2/5, sigma := 1/5, gamma := 1/10, mu := 0, population := 1000 }

/-! ## NetworkModel scale-free network creation

Embedded from the scale_free branch of NetworkModel.create_network in
src/backend/src/models/epidemiological.py. The network dict is modelled
as an association list in insertion order; the np.random.choice draw is
abstracted by a pick oracle, but numpy validates the probability vector
before drawing, which is what the claim exercises. -/

/-- The tolerance np.random.choice uses to check that probabilities sum
to 1: sqrt of the float64 machine epsilon, about 1.49e-8. -/
def npChoiceAtol : ℚ := 14901161193847656 / 10 ^ 24

/-- np.random.choice over range(i) with probability vector probs: raises
ValueError when the probabilities do not sum to 1 within npChoiceAtol;
the drawn index itself is the oracle value pick. -/
def npRandomChoice (pick : Nat) (probs : List ℚ) : Except String Nat :=
  if |probs.sum - 1| ≤ npChoiceAtol then .ok pick
  else .error "probabilities do not sum to 1"

/-- Python dict assignment network[k] = v on the association list. -/
def netSet (net : List (Nat × List Nat)) (k : Nat) (v : List Nat) :
    List (Nat × List Nat) :=
  if (net.map Prod.fst).contains k then
    net.map (fun p => if p.1 = k then (k, v) else p)
  else net ++ [(k, v)]

/-- degrees.get(node, 1): the recorded degree, or default 1. -/
def degreesGet (degrees : List (Nat × Nat)) (node : Nat) : Nat :=
  match degrees.lookup node with
  | some d => d
  | none => 1

/-- The reciprocal-edge bookkeeping after a successful attachment:
ensure target is a key, then append i to its edge list if absent. -/
def addReciprocal (net : List (Nat × List Nat)) (target i : Nat) :
    List (Nat × List Nat) :=
  let net1 := if (net.map Prod.fst).contains target then net
    else net ++ [(target, [])]
  match net1.lookup target with
  | some es => if es.contains i then net1 else netSet net1 target (es ++ [i])
  | none => net1

/-- One round of the preferential-attachment inner loop for node i: the
probability vector is rebuilt from the degrees snapshot taken before the
loop, np.random.choice picks a target (or raises), the target is
recorded and the reciprocal edge added. -/
def attachRound (pick : Nat → Nat → Nat) (i : Nat)
    (degrees : List (Nat × Nat)) (total : ℚ)
    (st : List (Nat × List Nat) × List Nat) (r : Nat) :
    Except String (List (Nat × List Nat) × List Nat) :=
  let probs := (List.range i).map
    (fun node => (degreesGet degrees node : ℚ) / total)
  if probs ≠ [] then
    match npRandomChoice (pick i r) probs with
    | Except.ok target =>
        Except.ok (addReciprocal st.1 target i, st.2 ++ [target])
    | Except.error e => Except.error e
  else Except.ok st

/-- The loop body of create_network for one node i of the scale_free
branch: node 0 gets an empty edge list; a later node snapshots the
degrees, computes total_degree (with the `or 1` fallback for an all-zero
sum), runs min(m, i) attachment rounds and stores the deduplicated
neighbour list (list(set(neighbors))). -/
def scaleFreeStep (pick : Nat → Nat → Nat) (m : Nat)
    (net : List (Nat × List Nat)) (i : Nat) :
    Except String (List (Nat × List Nat)) :=
  if i = 0 then Except.ok (netSet net 0 [])
  else
    let degrees : List (Nat × Nat) := net.map (fun p => (p.1, p.2.length))
    let degSum : Nat := (degrees.map Prod.snd).sum
    let total : ℚ := if degSum = 0 then 1 else (degSum : ℚ)
    match (List.range (min m i)).foldlM (attachRound pick i degrees total)
      (net, []) with
    | Except.ok st => Except.ok (netSet st.1 i st.2.dedup)
    | Except.error e => Except.error e

/-- NetworkModel.create_network for network_type scale_free with edge
parameter m: rejects a non-positive node count, iterates the per-node
step over all nodes, and wraps any exception of the loop into the
ValueError message Network creation failed. -/
def create_network_scale_free (pick : Nat → Nat → Nat) (m num_nodes : Nat) :
    Except String (List (Nat × List Nat)) :=
  if num_nodes = 0 then Except.error "Number of nodes must be positive"
  else
    match (List.range num_nodes).foldlM (scaleFreeStep pick m) [] with
    | Except.ok net => Except.ok net
    | Except.error e => Except.error ("Network creation failed: " ++ e)

/-! ## AgentBasedModel

Embedded from AgentBasedModel in src/backend/src/models/epidemiological.py.
Randomness is abstracted by oracles: cO gives the contact list
np.random.choice draws for an agent (the source draws min(5, n-1)
distinct non-self indices; the theorems hold for arbitrary lists, and the
source additionally bounds-checks each contact id, as embedded), and tO
gives the transmission coin for a contact position. The source collects
new infections and state transitions while iterating over the agents,
mutating only each agent's own infection_time in place; since states are
unchanged during that pass, collecting infections and transitions
against the pre-step snapshot and applying the infection_time increments
as a separate map is equivalent, and the infections and transitions are
applied afterwards exactly as in the source (infections first, then
transitions, indexing agents by position with the bounds safety check). -/

inductive AgentState where
  | S | E | I | R
deriving DecidableEq, Repr

/-- One agent of the model: its list index equals its id field. -/
structure Agent where
  id : Nat
  state : AgentState
  infection_time : Nat
  contacts : List Nat
deriving DecidableEq, Repr

/-- AgentBasedModel._initialize_agents: everyone susceptible with zero
infection time and no contacts, then patient zero (index 0) infectious
when the population is nonempty. -/
def initialize_agents (population_size : Nat) : List Agent :=
  let agents := (List.range population_size).map
    (fun i => { id := i, state := AgentState.S, infection_time := 0,
                contacts := [] : Agent })
  match agents with
  | [] => []
  | a :: rest => { a with state := AgentState.I } :: rest

/-- AgentBasedModel._generate_contacts: assign each agent the contact
list the random draw produces for its id. -/
def generate_contacts (cO : Nat → List Nat) (agents : List Agent) :
    List Agent :=
  agents.map (fun a => { a with contacts := cO a.id })

/-- The contact state test of the transmission loop: the contact at the
given index is susceptible. -/
def contactSusceptible (agents : List Agent) (cid : Nat) : Bool :=
  match agents.get? cid with
  | some c => c.state == AgentState.S
  | none => false

/-- The new_infections list of simulate_step: every infectious agent, in
order, transmits to each in-bounds susceptible contact for which the
transmission coin comes up true. -/
def newInfections (tO : Nat → Nat → Bool) (agents : List Agent) : List Nat :=
  agents.foldl (fun acc a =>
    if a.state = AgentState.I then
      acc ++ a.contacts.enum.filterMap (fun jc =>
        if decide (jc.2 < agents.length) && contactSusceptible agents jc.2 &&
            tO a.id jc.1
        then some jc.2 else none)
    else acc) []

/-- The state_transitions list of simulate_step: an infectious agent
whose incremented infection_time reaches recovery_time recovers; an
exposed agent whose incremented infection_time reaches incubation_time
becomes infectious. -/
def collectTransitions (recovery_time incubation_time : Nat)
    (agents : List Agent) : List (Nat × AgentState) :=
  agents.foldl (fun acc a =>
    if a.state = AgentState.I then
      if recovery_time ≤ a.infection_time + 1 then
        acc ++ [(a.id, AgentState.R)]
      else acc
    else if a.state = AgentState.E then
      if incubation_time ≤ a.infection_time + 1 then
        acc ++ [(a.id, AgentState.I)]
      else acc
    else acc) []

/-- The in-place infection_time increments of the collection pass. -/
def incrementTimes (agents : List Agent) : List Agent :=
  agents.map (fun a =>
    if a.state = AgentState.I ∨ a.state = AgentState.E then
      { a with infection_time := a.infection_time + 1 }
    else a)

/-- In-place update of the agent at a list position. -/
def modifyAt : List Agent → Nat → (Agent → Agent) → List Agent
  | [], _, _ => []
  | a :: rest, 0, f => f a :: rest
  | a :: rest, Nat.succ n, f => a :: modifyAt rest n f

/-- Apply the collected infections: each (in-bounds) newly infected
agent becomes exposed with infection_time reset to 0. -/
def applyInfections (ids : List Nat) (agents : List Agent) : List Agent :=
  ids.foldl (fun ag cid =>
    if cid < ag.length then
      modifyAt ag cid
        (fun a => { a with state := AgentState.E, infection_time := 0 })
    else ag) agents

/-- Apply the collected transitions: set the new state, resetting
infection_time when the agent becomes infectious. -/
def applyTransitions (trans : List (Nat × AgentState))
    (agents : List Agent) : List Agent :=
  trans.foldl (fun ag p =>
    if p.1 < ag.length then
      modifyAt ag p.1 (fun a =>
        if p.2 = AgentState.I then { a with state := p.2, infection_time := 0 }
        else { a with state := p.2 })
    else ag) agents

/-- The state_counts dictionary simulate_step returns. -/
structure StateCounts where
  S : Nat
  E : Nat
  I : Nat
  R : Nat
deriving DecidableEq, Repr

/-- One agent's contribution to the state counts. -/
def countStep (c : StateCounts) (a : Agent) : StateCounts :=
  match a.state with
  | AgentState.S => { c with S := c.S + 1 }
  | AgentState.E => { c with E := c.E + 1 }
  | AgentState.I => { c with I := c.I + 1 }
  | AgentState.R => { c with R := c.R + 1 }

/-- The final counting loop of simulate_step. -/
def countStates (agents : List Agent) : StateCounts :=
  agents.foldl countStep ⟨0, 0, 0, 0⟩

/-- AgentBasedModel.simulate_step: generate contacts, collect infections
and transitions from the previous snapshot, increment infection times,
apply infections then transitions, and count the resulting states. -/
def simulate_step (cO : Nat → List Nat) (tO : Nat → Nat → Bool)
    (recovery_time incubation_time : Nat) (agents : List Agent) :
    List Agent × StateCounts :=
  let ag1 := generate_contacts cO agents
  let infs := newInfections tO ag1
  let trans := collectTransitions recovery_time incubation_time ag1
  let ag2 := incrementTimes ag1
  let ag3 := applyInfections infs ag2
  let ag4 := applyTransitions trans ag3
  (ag4, countStates ag4)

/-- The step loop of AgentBasedModel.simulate, collecting each step's
state counts; the oracles take the step index first. -/
def runSteps (cO : Nat → Nat → List Nat) (tO : Nat → Nat → Nat → Bool)
    (recovery_time incubation_time : Nat) :
    Nat → List Agent → Nat → List StateCounts
  | _, _, 0 => []
  | step, agents, Nat.succ rem =>
      let p := simulate_step (cO step) (tO step) recovery_time
        incubation_time agents
      p.2 :: runSteps cO tO recovery_time incubation_time (step + 1) p.1 rem

/-- AgentBasedModel.simulate: initialise the population and run the
requested number of steps, recording the per-step state counts. -/
def simulate (cO : Nat → Nat → List Nat) (tO : Nat → Nat → Nat → Bool)
    (recovery_time incubation_time time_steps population_size : Nat) :
    List StateCounts :=
  runSteps cO tO recovery_time incubation_time 0
    (initialize_agents population_size) time_steps

/-! ## Claim theorems -/

/-- Helper: once the record is no longer pending, every further start
attempt is rejected with false and writes nothing. -/
theorem runStarts_not_pending (ws : List (String × String)) (now : Nat)
    (r : SimRecord) (h : ¬ r.status = .pending) :
    runStarts ws now r = (r, List.replicate ws.length false) := by
  induction ws with
  | nil => simp [runStarts]
  | cons tw rest ih =>
      obtain ⟨t, w⟩ := tw
      simp [runStarts, start_simulation, if_neg h, ih,
        List.replicate_succ]

/-- C1: a Simulation record is created with version 1; every successful
mutating lifecycle call (start, complete, fail, cancel) increments the
version by exactly one, and every rejected or no-op call returns the
record unchanged, so the version changes by zero there. Strict
monotonicity and the total ordering of transitions by version follow. -/
theorem version_steps_by_one_per_transition :
    mkSimulation.version = 1 ∧
    ∀ (op : LifeOp) (now : Nat) (r : SimRecord),
      (applyOp op now r).1.version =
        (if (applyOp op now r).2 then r.version + 1 else r.version) ∧
      (applyOp op now r).1 =
        (if (applyOp op now r).2 then (applyOp op now r).1 else r) := by
  refine ⟨rfl, ?_⟩
  intro op now r
  cases op with
  | startOp t w =>
      by_cases h : r.status = .pending <;>
        simp [applyOp, start_simulation, h]
  | completeOp res met =>
      by_cases h : r.status = .running <;>
        simp [applyOp, complete_simulation, h]
  | failOp m d =>
      by_cases h : r.status = .running ∨ r.status = .pending <;>
        simp [applyOp, fail_simulation, h]
  | cancelOp rs =>
      by_cases h : r.status = .pending ∨ r.status = .running <;>
        simp [applyOp, cancel_simulation, h]

/-- C2: any interleaving of N concurrent start calls against one pending
record is a sequence of atomic CAS attempts; exactly one returns true, the
other N-1 return false, none raises (start is total and Bool-valued), and
the final record is running with the version incremented exactly once. -/
theorem concurrent_start_exactly_one_winner (ws : List (String × String))
    (now : Nat) (r : SimRecord) (hpend : r.status = .pending)
    (hne : ws ≠ []) :
    (runStarts ws now r).2.count true = 1 ∧
    (runStarts ws now r).2.count false = ws.length - 1 ∧
    (runStarts ws now r).1.status = .running ∧
    (runStarts ws now r).1.version = r.version + 1 := by
  cases ws with
  | nil => exact absurd rfl hne
  | cons tw rest =>
      obtain ⟨t, w⟩ := tw
      have hstep : start_simulation t w now r =
          ({ r with
              status := .running
              version := r.version + 1
              task_id := some t
              worker_node := some w
              started_at := some now }, true) := by
        simp [start_simulation, hpend]
      have habs := runStarts_not_pending rest now
        ({ r with
            status := .running
            version := r.version + 1
            task_id := some t
            worker_node := some w
            started_at := some now }) (by simp)
      simp [runStarts, hstep, habs, List.count_replicate]

/-- C2 witness: two workers race to start a fresh pending record; the
result multiset is one true and one false and the final version is 2. -/
theorem concurrent_start_exactly_one_winner_witness :
    mkSimulation.status = .pending ∧
    ([("t1", "w1"), ("t2", "w2")] : List (String × String)) ≠ [] ∧
    ((runStarts [("t1", "w1"), ("t2", "w2")] 0 mkSimulation).2.count true = 1 ∧
     (runStarts [("t1", "w1"), ("t2", "w2")] 0 mkSimulation).2.count false =
       ([("t1", "w1"), ("t2", "w2")] : List (String × String)).length - 1 ∧
     (runStarts [("t1", "w1"), ("t2", "w2")] 0 mkSimulation).1.status = .running ∧
     (runStarts [("t1", "w1"), ("t2", "w2")] 0 mkSimulation).1.version =
       mkSimulation.version + 1) :=
  ⟨rfl, by decide,
    concurrent_start_exactly_one_winner [("t1", "w1"), ("t2", "w2")] 0
      mkSimulation rfl (by decide)⟩

/-- C3: complete called on a record that is not running yields the
illegal-transition error and returns the record unchanged, so status and
version keep the values they had before the call. -/
theorem complete_nonrunning_illegal_unchanged (res met : Blob) (now : Nat)
    (r : SimRecord) (h : r.status ≠ .running) :
    (complete_simulation res met now r).1 = r ∧
    (complete_simulation res met now r).2 =
      some (LifecycleError.illegalTransition "complete" r.status) ∧
    (complete_simulation res met now r).1.status = r.status ∧
    (complete_simulation res met now r).1.version = r.version := by
  simp [complete_simulation, if_pos h]

/-- Helper: a frame index below the list length yields a present cell. -/
theorem get?_some_of_lt (l : List ℚ) (j : Nat) (h : j < l.length) :
    ∃ v, l.get? j = some v :=
  ⟨l.get ⟨j, h⟩, List.get?_eq_get h⟩

/-- Helper: lag cells are present once the row has k predecessors. -/
theorem lagVal_ne_nan (pre : List ℚ) (i k : Nat) (hk : k ≤ i)
    (hi : i < pre.length) : lagVal pre i k ≠ FVal.nan := by
  unfold lagVal
  rw [if_pos hk]
  obtain ⟨v, hv⟩ := get?_some_of_lt pre (i - k) (by omega)
  rw [hv]
  simp

/-- Helper: difference cells are present once the row has k predecessors. -/
theorem diffVal_ne_nan (pre : List ℚ) (i k : Nat) (hk : k ≤ i)
    (hi : i < pre.length) : diffVal pre i k ≠ FVal.nan := by
  unfold diffVal
  rw [if_pos hk]
  obtain ⟨v, hv⟩ := get?_some_of_lt pre i hi
  obtain ⟨w, hw⟩ := get?_some_of_lt pre (i - k) (by omega)
  rw [hv, hw]
  simp

/-- Helper: the minimum of a nonempty window is a number. -/
theorem listMin_ne_nan (l : List ℚ) (h : l ≠ []) : listMin l ≠ FVal.nan := by
  cases l with
  | nil => exact absurd rfl h
  | cons x xs => simp [listMin]

/-- Helper: the maximum of a nonempty window is a number. -/
theorem listMax_ne_nan (l : List ℚ) (h : l ≠ []) : listMax l ≠ FVal.nan := by
  cases l with
  | nil => exact absurd rfl h
  | cons x xs => simp [listMax]

/-- Helper: the EMA of a nonempty prefix is a number. -/
theorem emaList_ne_nan (a : ℚ) (l : List ℚ) (h : l ≠ []) :
    emaList a l ≠ FVal.nan := by
  cases l with
  | nil => exact absurd rfl h
  | cons x xs => simp [emaList]

/-- Helper: a rolling window at a valid row index is nonempty. -/
theorem rollingSlice_ne_nil (pre : List ℚ) (i w : Nat) (hw : 0 < w)
    (hl : i < pre.length) : rollingSlice pre i w ≠ [] := by
  unfold rollingSlice
  have hlen : (pre.drop (i + 1 - w)).length = pre.length - (i + 1 - w) := by
    rw [List.length_drop]
  intro hnil
  rw [hnil] at hlen
  simp at hlen
  omega

/-- Helper: every cell of an open rolling block at a row with enough
history is a number. -/
theorem rollingBlock_ne_nan (pre : List ℚ) (n i w : Nat) (hw : 0 < w)
    (hwi : w ≤ i + 1) (hl : i < pre.length) :
    ∀ p ∈ rollingBlock pre n i w, p.2 ≠ FVal.nan := by
  intro p hp
  unfold rollingBlock at hp
  by_cases hn : w ≤ n
  · rw [if_pos hn, if_pos hwi] at hp
    have hs := rollingSlice_ne_nil pre i w hw hl
    rcases List.mem_cons.1 hp with h | hp
    · rw [h]; simp
    rcases List.mem_cons.1 hp with h | hp
    · rw [h]; simp
    rcases List.mem_cons.1 hp with h | hp
    · rw [h]; exact listMin_ne_nan _ hs
    rcases List.mem_cons.1 hp with h | hp
    · rw [h]; exact listMax_ne_nan _ hs
    cases hp
  · rw [if_neg hn] at hp
    cases hp

/-- Helper: from row index 13 onward every engineered cell of a feature
row is a number (no NaN), since all lags, windows and differences have
enough history. -/
theorem row_complete (d : List ℚ) (i : Nat) (h13 : 13 ≤ i)
    (hi : i < d.length) : ∀ p ∈ create_features_row d i, p.2 ≠ FVal.nan := by
  intro p hp
  have hpre : (d.take (i + 1)).length = i + 1 := by
    rw [List.length_take]; omega
  have hilt : i < (d.take (i + 1)).length := by omega
  have hprenil : d.take (i + 1) ≠ [] := by
    intro hn
    rw [hn] at hpre
    simp at hpre
  have g7 : 7 ≤ d.length := by omega
  unfold create_features_row featuresRow at hp
  rw [if_pos g7] at hp
  simp only [List.append_assoc] at hp
  rcases List.mem_append.1 hp with hp | hp
  · rw [List.mem_singleton] at hp
    obtain ⟨v, hv⟩ := get?_some_of_lt (d.take (i + 1)) i hilt
    rw [hp]
    show ¬(match (d.take (i + 1)).get? i with
      | some v => FVal.num v
      | none => FVal.nan) = FVal.nan
    rw [hv]
    simp
  rcases List.mem_append.1 hp with hp | hp
  · obtain ⟨j, hj, hqe⟩ := List.mem_map.1 hp
    have hj7 : j < 7 := List.mem_range.1 hj
    rw [← hqe]
    exact lagVal_ne_nan _ _ _ (by omega) hilt
  rcases List.mem_append.1 hp with hp | hp
  · exact rollingBlock_ne_nan (d.take (i + 1)) d.length i 3
      (by norm_num) (by omega) hilt p hp
  rcases List.mem_append.1 hp with hp | hp
  · exact rollingBlock_ne_nan (d.take (i + 1)) d.length i 7
      (by norm_num) (by omega) hilt p hp
  rcases List.mem_append.1 hp with hp | hp
  · exact rollingBlock_ne_nan (d.take (i + 1)) d.length i 14
      (by norm_num) (by omega) hilt p hp
  rcases List.mem_append.1 hp with hp | hp
  · rcases List.mem_cons.1 hp with h | hp
    · rw [h]; simp
    rcases List.mem_cons.1 hp with h | hp
    · rw [h]; simp
    cases hp
  rcases List.mem_append.1 hp with hp | hp
  · rw [List.mem_singleton] at hp
    rw [hp]
    exact diffVal_ne_nan _ _ _ (by omega) hilt
  rcases List.mem_append.1 hp with hp | hp
  · rw [List.mem_singleton] at hp
    rw [hp]
    exact diffVal_ne_nan _ _ _ (by omega) hilt
  rcases List.mem_cons.1 hp with h | hp
  · rw [h]; exact emaList_ne_nan _ _ hprenil
  rcases List.mem_cons.1 hp with h | hp
  · rw [h]; exact emaList_ne_nan _ _ hprenil
  rcases List.mem_cons.1 hp with h | hp
  · rw [h]; exact emaList_ne_nan _ _ hprenil
  cases hp

/-- Helper: with all length gates open a feature row carries every
column of the gate-independent set. -/
theorem featuresRow_length_indep (pre : List ℚ) (i n n2 : Nat)
    (h : 14 ≤ n) (h2 : 14 ≤ n2) :
    featuresRow pre n i = featuresRow pre n2 i := by
  have a3 : 3 ≤ n := by omega
  have a7 : 7 ≤ n := by omega
  have b3 : 3 ≤ n2 := by omega
  have b7 : 7 ≤ n2 := by omega
  simp [featuresRow, rollingBlock, a3, a7, h, b3, b7, h2]

/-- C4 (amended): for a frame that already has at least 14 rows (the
largest rolling window, so every length-gated column exists), the whole
labelled feature row create_features produces at row i is unchanged by
appending any rows after the frame: every cell depends only on rows
0..i. -/
theorem create_features_leak_proof (data ext : List ℚ) (i : Nat)
    (h14 : 14 ≤ data.length) (hi : i < data.length) :
    create_features_row (data ++ ext) i = create_features_row data i := by
  unfold create_features_row
  rw [List.take_append_of_le_length (by omega)]
  exact featuresRow_length_indep _ _ _ _ (by rw [List.length_append]; omega) h14

/-- C4 witness: a 14-row frame with one appended row keeps the feature
row at index 4 unchanged. -/
theorem create_features_leak_proof_witness :
    (14 ≤ (List.replicate 14 (0:ℚ)).length ∧
      4 < (List.replicate 14 (0:ℚ)).length) ∧
    create_features_row (List.replicate 14 (0:ℚ) ++ [1]) 4 =
      create_features_row (List.replicate 14 (0:ℚ)) 4 :=
  ⟨⟨by decide, by decide⟩,
    create_features_leak_proof (List.replicate 14 (0:ℚ)) [1] 4 (by decide)
      (by decide)⟩

/-- C4 counterexample: on the 5-row frame cexBase, appending the 50 rows
of cexExt changes the feature columns produced at row 4 (the length gates
of the window-7 and window-14 rolling statistics and of the seventh
difference open only on the longer frame), so the feature vector at
row 4 is not identical between the two frames, refuting the claim as
stated for arbitrary frames. -/
theorem create_features_cols_change_cex :
    (create_features_row (cexBase ++ cexExt) 4).map Prod.fst ≠
      (create_features_row cexBase 4).map Prod.fst := by decide

/-- C5: evaluating the fit_ensemble weight assignment at validation
errors 1 (random_forest), 4 (gradient_boosting) and inf (linear): both
usable models receive the same weight 1/5 = (1/4)/(1/1 + 1/4), because
the dict comprehension reads the leaked loop variable holding the last
computed error (4) instead of each model's own error, and the weights
sum to 2/5 rather than 1; the intended inverse-error weights would be
4/5, 1/5 and 0. -/
theorem fit_ensemble_weights_leaked_error :
    fit_ensemble_weights ["random_forest", "gradient_boosting", "linear"]
        bugErrors
      = [("random_forest", 1/5), ("gradient_boosting", 1/5), ("linear", 0)] ∧
    ((fit_ensemble_weights ["random_forest", "gradient_boosting", "linear"]
        bugErrors).map Prod.snd).sum = 2/5 := by
  have h1 : ("linear" = "random_forest") = False := eq_false (by decide)
  have h2 : ("linear" = "gradient_boosting") = False := eq_false (by decide)
  norm_num [fit_ensemble_weights, lastAssignedError, bugErrors,
    List.filterMap_cons, h1, h2]

/-- Helper: the column labels of a feature row over a frame with at
least 14 rows are exactly fullCols. -/
theorem row_cols_full (d : List ℚ) (i : Nat) (h14 : 14 ≤ d.length)
    (h13 : 13 ≤ i) : (create_features_row d i).map Prod.fst = fullCols := by
  have g3 : 3 ≤ d.length := by omega
  have g7 : 7 ≤ d.length := by omega
  have k3 : 3 ≤ i + 1 := by omega
  have k7 : 7 ≤ i + 1 := by omega
  have k14 : 14 ≤ i + 1 := by omega
  have hr7 : List.range 7 = [0, 1, 2, 3, 4, 5, 6] := by decide
  simp only [create_features_row, featuresRow, rollingBlock,
    if_pos g3, if_pos g7, if_pos h14, if_pos k3, if_pos k7, if_pos k14, hr7,
    List.map_append, List.map_cons, List.map_nil]
  simp
  decide

/-- Helper: a key listed among the pairs of an association list is found
by lookup, yielding the value of one of its pairs. -/
theorem lookup_of_mem_keys (r : List (String × FVal)) (c : String)
    (h : c ∈ r.map Prod.fst) : ∃ p ∈ r, r.lookup c = some p.2 := by
  induction r with
  | nil => simp at h
  | cons q rest ih =>
      obtain ⟨k, v⟩ := q
      by_cases hc : c = k
      · subst hc
        exact ⟨(c, v), List.mem_cons_self _ _, by simp [List.lookup]⟩
      · have hck : (c == k) = false := by simpa using hc
        simp only [List.map_cons, List.mem_cons] at h
        rcases h with h | h
        · exact absurd h hc
        · obtain ⟨p, hp, hl⟩ := ih h
          exact ⟨p, List.mem_cons_of_mem _ hp, by simp [List.lookup, hck, hl]⟩

/-- Helper: aligning a row whose keys cover the requested columns and
whose cells are all numbers yields no NaN. -/
theorem alignedRow_no_nan (cols : List String) (r : List (String × FVal))
    (hc : ∀ c ∈ cols, c ∈ r.map Prod.fst) (hv : ∀ p ∈ r, p.2 ≠ FVal.nan) :
    (alignedRow cols r).contains FVal.nan = false := by
  rw [List.contains_eq_any_beq]
  refine List.any_eq_false.2 ?_
  intro x hx
  obtain ⟨c, hcc, hxe⟩ := List.mem_map.1 hx
  obtain ⟨p, hp, hl⟩ := lookup_of_mem_keys r c (hc c hcc)
  rw [← hxe]
  show ¬(FVal.nan ==
    (match r.lookup c with | some v => v | none => FVal.nan)) = true
  rw [hl]
  simpa using (hv p hp).symm

/-- Helper: the first column-union step over a full-column row. -/
theorem colUnion_step_nil (r : List (String × FVal))
    (h : r.map Prod.fst = fullCols) :
    ([] : List String) ++ (r.map Prod.fst).filter
      (fun c => !([] : List String).contains c) = fullCols := by
  rw [h]
  rw [List.nil_append]
  refine List.filter_eq_self.2 ?_
  intro a _
  rfl

/-- Helper: a column-union step on a full accumulator adds nothing. -/
theorem colUnion_step_full (r : List (String × FVal))
    (h : r.map Prod.fst = fullCols) :
    fullCols ++ (r.map Prod.fst).filter (fun c => !fullCols.contains c) =
      fullCols := by
  rw [h]
  have hnil : fullCols.filter (fun c => !fullCols.contains c) = [] := by
    refine List.filter_eq_nil_iff.2 ?_
    intro a ha
    simp [ha]
  rw [hnil, List.append_nil]

/-- Helper: folding the union over full-column rows keeps fullCols. -/
theorem colUnion_foldl_full (rows : List (List (String × FVal)))
    (h : ∀ r ∈ rows, r.map Prod.fst = fullCols) :
    rows.foldl
      (fun acc r => acc ++ (r.map Prod.fst).filter (fun c => !acc.contains c))
      fullCols = fullCols := by
  induction rows with
  | nil => rfl
  | cons r rest ih =>
      rw [List.foldl_cons, colUnion_step_full r (h r (List.mem_cons_self _ _))]
      exact ih (fun q hq => h q (List.mem_cons_of_mem _ hq))

/-- Helper: the column union of a nonempty family of full-column rows is
fullCols. -/
theorem colUnion_const (rows : List (List (String × FVal)))
    (h : ∀ r ∈ rows, r.map Prod.fst = fullCols) (hne : rows ≠ []) :
    colUnion rows = fullCols := by
  cases rows with
  | nil => exact absurd rfl hne
  | cons r rest =>
      unfold colUnion
      rw [List.foldl_cons, colUnion_step_nil r (h r (List.mem_cons_self _ _))]
      exact colUnion_foldl_full rest (fun q hq => h q (List.mem_cons_of_mem _ hq))

/-- Helper: dropna keeps a feature row from index 13 onward. -/
theorem rowHasNan_false (d : List ℚ) (i : Nat) (h13 : 13 ≤ i)
    (hi : i < d.length) : rowHasNan (create_features_row d i) = false :=
  List.any_eq_false.2 (fun p hp => by simpa using row_complete d i h13 hi p hp)

/-- C6 (amended): prepare_data clamps the requested test size K to
K2 = max(10, min(K, n div 3)) and splits chronologically at s = n - K2;
whenever the training part has at least 14 rows, the test split it
returns has exactly K2 rows (the clamped size, not the requested K). -/
theorem prepare_data_clamped (data : List ℚ) (k : Nat)
    (h14 : 14 ≤ data.length - effectiveTestSize data.length k) :
    prepareDataTestLen data k = some (effectiveTestSize data.length k) := by
  set n := data.length with hn
  set t := effectiveTestSize n k with ht
  set s := n - t with hs
  have ht10 : 10 ≤ t := le_max_left _ _
  have htr : (data.take s).length = s := by
    rw [List.length_take]
    omega
  have htrmem : create_features_row (data.take s) (s - 1) ∈
      train_clean_rows data s := by
    unfold train_clean_rows
    refine List.mem_filter.2 ⟨?_, ?_⟩
    · exact List.mem_map.2 ⟨s - 1, List.mem_range.2 (by omega), rfl⟩
    · rw [rowHasNan_false _ _ (by omega) (by omega)]
      rfl
  have htrne : train_clean_rows data s ≠ [] := List.ne_nil_of_mem htrmem
  have hrows : ∀ r ∈ test_raw_rows data s t,
      r.map Prod.fst = fullCols ∧ ∀ p ∈ r, p.2 ≠ FVal.nan := by
    intro r hr
    obtain ⟨i, hi, hre⟩ := List.mem_map.1 hr
    have hit : i < t := List.mem_range.1 hi
    have hfl : (data.take (s + i + 1)).length = s + i + 1 := by
      rw [List.length_take]
      omega
    subst hre
    exact ⟨row_cols_full _ _ (by omega) (by omega),
      row_complete _ _ (by omega) (by omega)⟩
  have hrowsne : test_raw_rows data s t ≠ [] := by
    unfold test_raw_rows
    intro hnil
    have h0 : t = 0 := by simpa using congrArg List.length hnil
    omega
  have hcols : colUnion (test_raw_rows data s t) = fullCols :=
    colUnion_const _ (fun r hr => (hrows r hr).1) hrowsne
  have htestlen : (test_clean_rows data s t).length = t := by
    unfold test_clean_rows
    dsimp only
    rw [hcols]
    rw [List.filter_eq_self.2 (fun ar har => by
      obtain ⟨r, hr, hare⟩ := List.mem_map.1 har
      rw [← hare]
      rw [alignedRow_no_nan fullCols r
        (fun c hc => by rw [(hrows r hr).1]; exact hc) (hrows r hr).2]
      rfl)]
    rw [List.length_map]
    unfold test_raw_rows
    rw [List.length_map, List.length_range]
  have htcne : test_clean_rows data s t ≠ [] := by
    intro hnil
    rw [hnil] at htestlen
    simp at htestlen
    omega
  unfold prepareDataTestLen prepare_data
  rw [if_neg (show ¬ (n - effectiveTestSize n k < 10) by omega)]
  rw [if_neg htrne, if_neg htcne]
  simp [Except.toOption, htestlen]

/-- C6 witness: a 24-row frame with requested test size 10 yields a
14-row training part and a returned test split of exactly the clamped
size 10. -/
theorem prepare_data_clamped_witness :
    14 ≤ (List.replicate 24 (0:ℚ)).length -
      effectiveTestSize (List.replicate 24 (0:ℚ)).length 10 ∧
    prepareDataTestLen (List.replicate 24 (0:ℚ)) 10 =
      some (effectiveTestSize (List.replicate 24 (0:ℚ)).length 10) :=
  ⟨by decide, prepare_data_clamped (List.replicate 24 (0:ℚ)) 10 (by decide)⟩

/-- C6 counterexample: on a 24-row frame with requested test size K = 3,
prepare_data returns a test split of 10 rows, not 3 (the requested size
is clamped up to the minimum test size 10), refuting the claim that the
test split has exactly K rows for every frame length and every K. -/
theorem prepare_data_requested_size_cex :
    prepareDataTestLen frame24 3 = some 10 ∧ (10 : Nat) ≠ 3 :=
  ⟨by decide, by decide⟩

/-- C3 witness: completing a pending record fails with the
illegal-transition error and leaves the record unchanged. -/
theorem complete_nonrunning_illegal_unchanged_witness :
    mkSimulation.status ≠ .running ∧
    ((complete_simulation [] [] 0 mkSimulation).1 = mkSimulation ∧
     (complete_simulation [] [] 0 mkSimulation).2 =
       some (LifecycleError.illegalTransition "complete" mkSimulation.status) ∧
     (complete_simulation [] [] 0 mkSimulation).1.status = mkSimulation.status ∧
     (complete_simulation [] [] 0 mkSimulation).1.version =
       mkSimulation.version) :=
  ⟨by decide, complete_nonrunning_illegal_unchanged [] [] 0 mkSimulation
    (by decide)⟩

/-- Helper: derivative of exp(-t). -/
theorem hasDerivAt_exp_neg (t : ℝ) :
    HasDerivAt (fun u : ℝ => Real.exp (-u)) (-Real.exp (-t)) t := by
  have h1 : HasDerivAt (fun u : ℝ => -u) (-1 : ℝ) t := (hasDerivAt_id t).neg
  simpa using h1.exp

/-- Helper: cexSol solves the SEIR ODE for cexParams on nonnegative
times. -/
theorem cexSol_is_solution : IsSEIRSolution cexParams cexSol := by
  refine ⟨?_, ?_, ?_, ?_⟩
  · intro t ht
    have hval : (seir_equations cexParams (cexSol t)).S = 0 := by
      simp [seir_equations, cexParams, cexSol]
    rw [hval]
    exact hasDerivAt_const t 997
  · intro t ht
    have hmE : max 0 (2 * Real.exp (-t)) = 2 * Real.exp (-t) :=
      max_eq_right (by positivity)
    have hval : (seir_equations cexParams (cexSol t)).E =
        2 * -Real.exp (-t) := by
      simp only [seir_equations, cexParams, cexSol]
      rw [hmE]
      ring_nf
    rw [hval]
    exact (hasDerivAt_exp_neg t).const_mul 2
  · intro t ht
    have hmE : max 0 (2 * Real.exp (-t)) = 2 * Real.exp (-t) :=
      max_eq_right (by positivity)
    have hmI : max 0 (2 * t * Real.exp (-t)) = 2 * t * Real.exp (-t) :=
      max_eq_right (mul_nonneg (mul_nonneg (by norm_num) ht)
        (Real.exp_pos _).le)
    have hval : (seir_equations cexParams (cexSol t)).I =
        2 * 1 * Real.exp (-t) + 2 * t * -Real.exp (-t) := by
      simp only [seir_equations, cexParams, cexSol]
      rw [hmE, hmI]
      ring_nf
    rw [hval]
    exact ((hasDerivAt_id t).const_mul 2).mul (hasDerivAt_exp_neg t)
  · intro t ht
    have hmI : max 0 (2 * t * Real.exp (-t)) = 2 * t * Real.exp (-t) :=
      max_eq_right (mul_nonneg (mul_nonneg (by norm_num) ht)
        (Real.exp_pos _).le)
    have hval : (seir_equations cexParams (cexSol t)).R =
        0 - 2 * (1 * Real.exp (-t) + (1 + t) * -Real.exp (-t)) := by
      simp only [seir_equations, cexParams, cexSol]
      rw [hmI]
      ring_nf
    rw [hval]
    have h1 : HasDerivAt (fun u : ℝ => 1 + u) (1 : ℝ) t := by
      simpa using (hasDerivAt_id t).const_add 1
    exact (hasDerivAt_const t 2).sub
      ((h1.mul (hasDerivAt_exp_neg t)).const_mul 2)

/-- C7 counterexample: a beta = 0 SEIR run with valid parameters and
admissible nonnegative initial conditions (997, 2, 0, 0), total 999 of
population 1000, whose infectious series on the grid 0, 1 is not
non-increasing: the exposed pool keeps converting into infections, so
the claim fails for general admissible initial conditions. -/
theorem seir_beta0_increasing_cex :
    validParams cexParams ∧ cexParams.beta = 0 ∧
    IsSEIRSolution cexParams cexSol ∧
    (0 ≤ (cexSol 0).S ∧ 0 ≤ (cexSol 0).E ∧ 0 ≤ (cexSol 0).I ∧
      0 ≤ (cexSol 0).R ∧
      (cexSol 0).S + (cexSol 0).E + (cexSol 0).I + (cexSol 0).R ≤
        cexParams.population) ∧
    ¬ (infectiousSeries cexSol [0, 1]).Chain' (fun a b => b ≤ a) := by
  refine ⟨?_, rfl, cexSol_is_solution, ?_, ?_⟩
  · refine ⟨le_refl 0, ?_, ?_, ?_, ?_⟩ <;> norm_num [cexParams]
  · norm_num [cexSol, Real.exp_zero, cexParams]
  · simp only [infectiousSeries, List.map_cons, List.map_nil,
      List.chain'_cons, List.chain'_singleton, and_true]
    intro hle
    have h0 : (cexSol 0).I = 0 := by
      simp [cexSol]
    have h1 : (cexSol 1).I = 2 * Real.exp (-1) := by
      simp [cexSol]
    rw [h0, h1] at hle
    have hpos : (0:ℝ) < 2 * Real.exp (-1) := by positivity
    rw [max_eq_right hpos.le, max_self] at hle
    linarith

/-- Helper: a function with nonpositive derivative on nonnegative times
is antitone there. -/
theorem antitoneOn_Ici_of_hasDerivAt (f : ℝ → ℝ) (g : ℝ → ℝ)
    (hd : ∀ t, 0 ≤ t → HasDerivAt f (g t) t) (hnp : ∀ t, 0 ≤ t → g t ≤ 0) :
    AntitoneOn f (Set.Ici 0) := by
  refine antitoneOn_of_deriv_nonpos (convex_Ici 0) ?_ ?_ ?_
  · intro x hx
    exact (hd x hx).continuousAt.continuousWithinAt
  · intro x hx
    rw [interior_Ici] at hx
    exact (hd x (le_of_lt hx)).differentiableAt.differentiableWithinAt
  · intro x hx
    rw [interior_Ici] at hx
    rw [(hd x (le_of_lt hx)).deriv]
    exact hnp x (le_of_lt hx)

/-- C7 (amended): for every SEIR run with beta = 0, valid parameters,
and no initial exposed (in particular the default initial conditions of
simulate, which set E to 0), the clamped infectious series returned on
any sorted nonnegative time grid is non-increasing. With beta = 0 the
exposed compartment can only decay from 0, so it stays 0 and the
infectious derivative sigma E - (gamma + mu) I is nonpositive. -/
theorem seir_beta0_zero_exposed_noninc (p : SEIRParameters)
    (f : ℝ → SEIRState) (hp : validParams p) (hb : p.beta = 0)
    (hf : IsSEIRSolution p f) (hE0 : (f 0).E = 0)
    (grid : List ℝ) (hg : grid.Chain' (· ≤ ·)) (hg0 : ∀ u ∈ grid, 0 ≤ u) :
    (infectiousSeries f grid).Chain' (fun a b => b ≤ a) := by
  obtain ⟨hbeta, hsig, hgam, hmu, hpop⟩ := hp
  have hsm : 0 < p.sigma + p.mu := by linarith
  have hgm : 0 < p.gamma + p.mu := by linarith
  have hE' : ∀ t, 0 ≤ t → HasDerivAt (fun u => (f u).E)
      (-(p.sigma + p.mu) * max 0 ((f t).E)) t := by
    intro t ht
    have h := hf.hE t ht
    have heq : (seir_equations p (f t)).E =
        -(p.sigma + p.mu) * max 0 ((f t).E) := by
      simp only [seir_equations, hb]
      ring_nf
    rwa [heq] at h
  have hgd : ∀ t, 0 ≤ t →
      HasDerivAt (fun u => (f u).E * Real.exp ((p.sigma + p.mu) * u))
        ((-(p.sigma + p.mu) * max 0 ((f t).E)) *
            Real.exp ((p.sigma + p.mu) * t) +
          (f t).E * (Real.exp ((p.sigma + p.mu) * t) * (p.sigma + p.mu))) t := by
    intro t ht
    have hlin : HasDerivAt (fun u : ℝ => (p.sigma + p.mu) * u)
        (p.sigma + p.mu) t := by
      simpa using (hasDerivAt_id t).const_mul (p.sigma + p.mu)
    exact (hE' t ht).mul hlin.exp
  have hgnp : ∀ t, 0 ≤ t →
      (-(p.sigma + p.mu) * max 0 ((f t).E)) * Real.exp ((p.sigma + p.mu) * t) +
        (f t).E * (Real.exp ((p.sigma + p.mu) * t) * (p.sigma + p.mu)) ≤ 0 := by
    intro t ht
    have hfac : (-(p.sigma + p.mu) * max 0 ((f t).E)) *
          Real.exp ((p.sigma + p.mu) * t) +
        (f t).E * (Real.exp ((p.sigma + p.mu) * t) * (p.sigma + p.mu)) =
        ((p.sigma + p.mu) * Real.exp ((p.sigma + p.mu) * t)) *
          ((f t).E - max 0 ((f t).E)) := by
      ring
    rw [hfac]
    refine mul_nonpos_of_nonneg_of_nonpos ?_ ?_
    · exact mul_nonneg hsm.le (Real.exp_pos _).le
    · simp [sub_nonpos, le_max_right]
  have hEanti : AntitoneOn
      (fun u => (f u).E * Real.exp ((p.sigma + p.mu) * u)) (Set.Ici 0) :=
    antitoneOn_Ici_of_hasDerivAt _ _ hgd hgnp
  have hEnonpos : ∀ t, 0 ≤ t → (f t).E ≤ 0 := by
    intro t ht
    have h0 := hEanti (Set.left_mem_Ici) (Set.mem_Ici.2 ht) ht
    simp only [hE0, zero_mul] at h0
    nlinarith [Real.exp_pos ((p.sigma + p.mu) * t)]
  have hI' : ∀ t, 0 ≤ t → HasDerivAt (fun u => (f u).I)
      (p.sigma * max 0 ((f t).E) - (p.gamma + p.mu) * max 0 ((f t).I)) t := by
    intro t ht
    have h := hf.hI t ht
    have heq : (seir_equations p (f t)).I =
        p.sigma * max 0 ((f t).E) - (p.gamma + p.mu) * max 0 ((f t).I) := by
      simp only [seir_equations]
      ring_nf
    rwa [heq] at h
  have hInp : ∀ t, 0 ≤ t →
      p.sigma * max 0 ((f t).E) - (p.gamma + p.mu) * max 0 ((f t).I) ≤ 0 := by
    intro t ht
    have hmax : max 0 ((f t).E) = 0 := max_eq_left (hEnonpos t ht)
    rw [hmax, mul_zero, zero_sub, neg_nonpos]
    exact mul_nonneg hgm.le (le_max_left _ _)
  have hIanti : AntitoneOn (fun u => (f u).I) (Set.Ici 0) :=
    antitoneOn_Ici_of_hasDerivAt _ _ hI' hInp
  have hMax : AntitoneOn (fun u => max 0 ((f u).I)) (Set.Ici 0) := by
    intro x hx y hy hxy
    exact max_le_max le_rfl (hIanti hx hy hxy)
  have hchain : ∀ (l : List ℝ), l.Chain' (· ≤ ·) → (∀ u ∈ l, 0 ≤ u) →
      (l.map (fun u => max 0 ((f u).I))).Chain' (fun a b => b ≤ a) := by
    intro l
    induction l with
    | nil => intro _ _; simp
    | cons x xs ih =>
        intro hc hm
        cases xs with
        | nil => simp
        | cons y ys =>
            rw [List.chain'_cons] at hc
            rw [List.map_cons, List.map_cons, List.chain'_cons]
            refine ⟨hMax (Set.mem_Ici.2 (hm x (by simp)))
              (Set.mem_Ici.2 (hm y (by simp))) hc.1, ?_⟩
            have hrec := ih hc.2 (fun u hu => hm u (List.mem_cons_of_mem _ hu))
            rw [List.map_cons] at hrec
            exact hrec
  exact hchain grid hg hg0

/-- Helper: witSol solves the SEIR ODE for witParams on nonnegative
times. -/
theorem witSol_is_solution : IsSEIRSolution witParams witSol := by
  refine ⟨?_, ?_, ?_, ?_⟩
  · intro t ht
    have hval : (seir_equations witParams (witSol t)).S = 0 := by
      simp [seir_equations, witParams, witSol]
    rw [hval]
    exact hasDerivAt_const t 999
  · intro t ht
    have hval : (seir_equations witParams (witSol t)).E = 0 := by
      simp [seir_equations, witParams, witSol]
    rw [hval]
    exact hasDerivAt_const t 0
  · intro t ht
    have hmI : max 0 (Real.exp (-t)) = Real.exp (-t) :=
      max_eq_right (Real.exp_pos _).le
    have hval : (seir_equations witParams (witSol t)).I = -Real.exp (-t) := by
      simp only [seir_equations, witParams, witSol]
      rw [hmI, max_self]
      ring
    rw [hval]
    exact hasDerivAt_exp_neg t
  · intro t ht
    have hmI : max 0 (Real.exp (-t)) = Real.exp (-t) :=
      max_eq_right (Real.exp_pos _).le
    have hval : (seir_equations witParams (witSol t)).R =
        0 - -Real.exp (-t) := by
      simp only [seir_equations, witParams, witSol]
      rw [hmI]
      ring_nf
    rw [hval]
    exact (hasDerivAt_const t 1).sub (hasDerivAt_exp_neg t)

/-- Helper: the two-point grid 0, 1 is sorted. -/
theorem seir_wit_chain : ([0, 1] : List ℝ).Chain' (· ≤ ·) := by
  norm_num [List.chain'_cons, List.chain'_singleton]

/-- C7 witness: the witParams run started with no exposed yields a
non-increasing clamped infectious series on the grid 0, 1. -/
theorem seir_beta0_zero_exposed_noninc_witness :
    (validParams witParams ∧ witParams.beta = 0 ∧
     IsSEIRSolution witParams witSol ∧ (witSol 0).E = 0 ∧
     ([0, 1] : List ℝ).Chain' (· ≤ ·) ∧ (∀ u ∈ ([0, 1] : List ℝ), 0 ≤ u)) ∧
    (infectiousSeries witSol [0, 1]).Chain' (fun a b => b ≤ a) :=
  ⟨⟨by norm_num [validParams, witParams], rfl, witSol_is_solution,
    by simp [witSol], seir_wit_chain, by intro u hu; fin_cases hu <;> norm_num⟩,
   seir_beta0_zero_exposed_noninc witParams witSol
     (by norm_num [validParams, witParams]) rfl witSol_is_solution
     (by simp [witSol]) [0, 1] seir_wit_chain
     (by intro u hu; fin_cases hu <;> norm_num)⟩

/-- C8: for every SEIRModel whose parameters pass validation, the
denominator gamma + mu is positive and calculate_r0 returns exactly
beta / (gamma + mu). -/
theorem calculate_r0_exact (p : SEIRParameters) (hp : validParams p) :
    0 < p.gamma + p.mu ∧ calculate_r0 p = p.beta / (p.gamma + p.mu) := by
  obtain ⟨hb, hs, hg, hm, hn⟩ := hp
  exact ⟨by linarith, rfl⟩

/-- C8 witness: calculate_r0 at the valid parameters r0Params. -/
theorem calculate_r0_exact_witness :
    validParams r0Params ∧
    (0 < r0Params.gamma + r0Params.mu ∧
     calculate_r0 r0Params = r0Params.beta / (r0Params.gamma + r0Params.mu)) :=
  ⟨by norm_num [validParams, r0Params],
   calculate_r0_exact r0Params (by norm_num [validParams, r0Params])⟩

/-- Helper: node 0 just records an empty edge list. -/
theorem scaleFreeStep_zero (pick : Nat → Nat → Nat) (m : Nat) :
    scaleFreeStep pick m [] 0 = Except.ok [(0, [])] := rfl

/-- Helper: attaching node 1 always fails: the only existing node has
degree 0, so the probability vector is the singleton 0, which
np.random.choice rejects. -/
theorem scaleFreeStep_one (pick : Nat → Nat → Nat) (m : Nat) (hm : 1 ≤ m) :
    scaleFreeStep pick m [(0, [])] 1 =
      Except.error "probabilities do not sum to 1" := by
  have hmin : min m 1 = 1 := Nat.min_eq_right hm
  have hround : attachRound pick 1 [(0, 0)] 1 ([(0, [])], []) 0 =
      Except.error "probabilities do not sum to 1" := by
    have hprobs : (List.range 1).map
        (fun node => (degreesGet [(0, 0)] node : ℚ) / (1 : ℚ)) = [0] := by
      have hr1 : List.range 1 = [0] := by
        rw [List.range_succ, List.range_zero, List.nil_append]
      rw [hr1]
      simp [degreesGet, List.lookup]
    have hsum : ¬ (|([(0 : ℚ)].sum - 1)| ≤ npChoiceAtol) := by
      simp only [List.sum_cons, List.sum_nil, add_zero, zero_sub, abs_neg,
        abs_one]
      norm_num [npChoiceAtol]
    unfold attachRound
    rw [hprobs]
    rw [if_pos (by simp : ([(0 : ℚ)] : List ℚ) ≠ [])]
    unfold npRandomChoice
    rw [if_neg hsum]
  have hr1 : List.range 1 = [0] := by
    rw [List.range_succ, List.range_zero, List.nil_append]
  unfold scaleFreeStep
  rw [if_neg one_ne_zero]
  simp only [List.map_cons, List.map_nil, List.length_nil, List.sum_cons,
    List.sum_nil, add_zero, hmin]
  rw [hr1]
  rw [if_pos trivial]
  simp only [List.foldlM]
  rw [hround]
  rfl

/-- Helper: the node loop errors as soon as it reaches node 1, and the
exception propagates past the remaining nodes. -/
theorem foldlM_scaleFree_start (pick : Nat → Nat → Nat) (m : Nat)
    (rest : List Nat) (hm : 1 ≤ m) :
    (0 :: 1 :: rest).foldlM (scaleFreeStep pick m) [] =
      Except.error "probabilities do not sum to 1" := by
  show (scaleFreeStep pick m [] 0) >>=
    (fun b => (1 :: rest).foldlM (scaleFreeStep pick m) b) = _
  rw [scaleFreeStep_zero]
  show (scaleFreeStep pick m [(0, [])] 1) >>=
    (fun b => rest.foldlM (scaleFreeStep pick m) b) = _
  rw [scaleFreeStep_one pick m hm]
  rfl

/-- C9: for every edges-to-attach parameter m at least 1 (including the
default 2), every node count of at least 2 and every random draw,
create_network for a scale_free network raises the Network creation
failed ValueError: when node 1 attaches, node 0 has degree 0, the
preferential-attachment probability vector is the singleton 0, and
np.random.choice rejects it for not summing to 1, so the scale-free
backend can never build a graph of two or more nodes. -/
theorem scale_free_network_always_fails (pick : Nat → Nat → Nat) (m n : Nat)
    (hm : 1 ≤ m) (hn : 2 ≤ n) :
    create_network_scale_free pick m n =
      Except.error "Network creation failed: probabilities do not sum to 1" := by
  obtain ⟨k, rfl⟩ : ∃ k, n = k + 2 := ⟨n - 2, by omega⟩
  have hr : List.range (k + 2) =
      0 :: 1 :: ((List.range k).map Nat.succ).map Nat.succ := by
    rw [List.range_succ_eq_map, List.range_succ_eq_map]
    simp
  unfold create_network_scale_free
  rw [if_neg (by omega)]
  rw [hr, foldlM_scaleFree_start pick m _ hm]
  rfl

/-- C9 witness: the default m = 2 with two nodes and any fixed draw. -/
theorem scale_free_network_always_fails_witness :
    ((1 : Nat) ≤ 2 ∧ (2 : Nat) ≤ 2) ∧
    create_network_scale_free (fun _ _ => 0) 2 2 =
      Except.error "Network creation failed: probabilities do not sum to 1" :=
  ⟨⟨by decide, by decide⟩,
   scale_free_network_always_fails (fun _ _ => 0) 2 2 (by decide) (by decide)⟩

/-- Helper: the counting fold adds exactly one to one bucket per
agent. -/
theorem countStates_foldl (agents : List Agent) (c : StateCounts) :
    (agents.foldl countStep c).S + (agents.foldl countStep c).E +
      (agents.foldl countStep c).I + (agents.foldl countStep c).R =
      c.S + c.E + c.I + c.R + agents.length := by
  induction agents generalizing c with
  | nil => simp
  | cons a rest ih =>
      rw [List.foldl_cons, ih]
      cases h : a.state <;> simp [countStep, h] <;> omega

/-- Helper: the state counts of any agent list sum to its length. -/
theorem countStates_sum (agents : List Agent) :
    (countStates agents).S + (countStates agents).E +
      (countStates agents).I + (countStates agents).R = agents.length := by
  unfold countStates
  rw [countStates_foldl]
  simp

/-- Helper: a positional update does not change the number of agents. -/
theorem modifyAt_length (l : List Agent) (n : Nat) (f : Agent → Agent) :
    (modifyAt l n f).length = l.length := by
  induction l generalizing n with
  | nil => rfl
  | cons a rest ih =>
      cases n with
      | zero => rfl
      | succ k => simp [modifyAt, ih]

/-- Helper: applying infections preserves the number of agents. -/
theorem applyInfections_length :
    ∀ (ids : List Nat) (agents : List Agent),
      (applyInfections ids agents).length = agents.length := by
  intro ids
  induction ids with
  | nil => intro agents; rfl
  | cons i rest ih =>
      intro agents
      show (applyInfections rest (if i < agents.length then
        modifyAt agents i
          (fun a => { a with state := AgentState.E, infection_time := 0 })
        else agents)).length = agents.length
      rw [ih]
      by_cases h : i < agents.length
      · simp [h, modifyAt_length]
      · simp [h]

/-- Helper: applying transitions preserves the number of agents. -/
theorem applyTransitions_length :
    ∀ (trans : List (Nat × AgentState)) (agents : List Agent),
      (applyTransitions trans agents).length = agents.length := by
  intro trans
  induction trans with
  | nil => intro agents; rfl
  | cons p rest ih =>
      intro agents
      show (applyTransitions rest (if p.1 < agents.length then
        modifyAt agents p.1 (fun a =>
          if p.2 = AgentState.I then { a with state := p.2, infection_time := 0 }
          else { a with state := p.2 })
        else agents)).length = agents.length
      rw [ih]
      by_cases h : p.1 < agents.length
      · simp [h, modifyAt_length]
      · simp [h]

/-- Helper: one simulation step neither creates nor destroys agents. -/
theorem simulate_step_length (cO : Nat → List Nat) (tO : Nat → Nat → Bool)
    (rt it : Nat) (agents : List Agent) :
    (simulate_step cO tO rt it agents).1.length = agents.length := by
  unfold simulate_step
  dsimp only
  rw [applyTransitions_length, applyInfections_length]
  unfold incrementTimes generate_contacts
  simp

/-- Helper: the counts one simulation step returns sum to the number of
incoming agents. -/
theorem simulate_step_counts (cO : Nat → List Nat) (tO : Nat → Nat → Bool)
    (rt it : Nat) (agents : List Agent) :
    (simulate_step cO tO rt it agents).2.S +
      (simulate_step cO tO rt it agents).2.E +
      (simulate_step cO tO rt it agents).2.I +
      (simulate_step cO tO rt it agents).2.R = agents.length := by
  unfold simulate_step
  dsimp only
  rw [countStates_sum, applyTransitions_length, applyInfections_length]
  unfold incrementTimes generate_contacts
  simp

/-- Helper: initialisation creates exactly population_size agents. -/
theorem initialize_agents_length (n : Nat) :
    (initialize_agents n).length = n := by
  have hm : ∀ (l : List Agent),
      (match l with
       | [] => ([] : List Agent)
       | a :: rest => { a with state := AgentState.I } :: rest).length =
        l.length := by
    intro l
    cases l <;> rfl
  unfold initialize_agents
  dsimp only
  rw [hm]
  simp

/-- Helper: every recorded step count sums to the running population. -/
theorem runSteps_counts (cO : Nat → Nat → List Nat)
    (tO : Nat → Nat → Nat → Bool) (rt it : Nat) :
    ∀ (T step : Nat) (agents : List Agent),
      ∀ c ∈ runSteps cO tO rt it step agents T,
        c.S + c.E + c.I + c.R = agents.length := by
  intro T
  induction T with
  | zero => intro step agents c hc; cases hc
  | succ T ih =>
      intro step agents c hc
      rw [runSteps] at hc
      rcases List.mem_cons.1 hc with h | h
      · rw [h]
        exact simulate_step_counts _ _ _ _ _
      · have hrec := ih (step + 1) _ c h
        rw [simulate_step_length] at hrec
        exact hrec

/-- C10: the agent-based model conserves its population. Each agent is
in exactly one of the states S, E, I, R (the state field is a single
value of that enumeration); initialisation creates exactly
population_size agents whose counts sum to population_size; every
simulate_step returns an agent list of unchanged length and state counts
summing to it; and every count vector recorded by simulate sums exactly
to population_size, for every oracle of contact draws and transmission
coins. -/
theorem abm_population_conserved (cO : Nat → Nat → List Nat)
    (tO : Nat → Nat → Nat → Bool) (rt it T n : Nat) :
    ((initialize_agents n).length = n ∧
     (countStates (initialize_agents n)).S +
       (countStates (initialize_agents n)).E +
       (countStates (initialize_agents n)).I +
       (countStates (initialize_agents n)).R = n) ∧
    (∀ (c1 : Nat → List Nat) (t1 : Nat → Nat → Bool) (agents : List Agent),
      (simulate_step c1 t1 rt it agents).1.length = agents.length ∧
      (simulate_step c1 t1 rt it agents).2.S +
        (simulate_step c1 t1 rt it agents).2.E +
        (simulate_step c1 t1 rt it agents).2.I +
        (simulate_step c1 t1 rt it agents).2.R = agents.length) ∧
    (∀ c ∈ simulate cO tO rt it T n, c.S + c.E + c.I + c.R = n) := by
  refine ⟨⟨initialize_agents_length n, ?_⟩, ?_, ?_⟩
  · rw [countStates_sum, initialize_agents_length]
  · intro c1 t1 agents
    exact ⟨simulate_step_length _ _ _ _ _, simulate_step_counts _ _ _ _ _⟩
  · intro c hc
    have hrec := runSteps_counts cO tO rt it T 0 (initialize_agents n) c hc
    rw [initialize_agents_length] at hrec
    exact hrec

/-- C10 witness: a three-agent population run for two steps with empty
contact draws records the counts (2, 0, 1, 0), which sum to 3. -/
theorem abm_population_conserved_witness :
    ((⟨2, 0, 1, 0⟩ : StateCounts) ∈
      simulate (fun _ _ => []) (fun _ _ _ => false) 5 5 2 3) ∧
    (⟨2, 0, 1, 0⟩ : StateCounts).S + (⟨2, 0, 1, 0⟩ : StateCounts).E +
      (⟨2, 0, 1, 0⟩ : StateCounts).I + (⟨2, 0, 1, 0⟩ : StateCounts).R = 3 :=
  ⟨by decide,
   (abm_population_conserved (fun _ _ => []) (fun _ _ _ => false) 5 5 2 3).2.2
     ⟨2, 0, 1, 0⟩ (by decide)⟩

end Phim
